/-
Verification of the taifun DNS-enumeration pipeline against its
natural-language specification.

The development shallowly embeds the Go sources:
  * the Result / Request / Response data model and `runFilters`
    (recorder.go, second document),
  * the filter constructors (filter.go),
  * `cleanHostname`, `sendRequest` and `Resolver.lookup` (response.go,
    second document), with the wire-level DNS exchange abstracted as in
    the spec's protocol-collaborator contract,
  * the Recorder's select loop (`Recorder.Run`, recorder.go, first
    document) as an event-step machine over the older V1 result model
    that this version of the recorder serializes,
  * the range producer, modelled from the spec (the producer package is
    not part of the provided sources).

Pure Go functions become Lean functions; the Recorder's select loop
becomes a step relation driven by an explicit event trace; fallible
steps return Option.
-/
import Mathlib

set_option maxHeartbeats 1000000

/-! ## Data model (recorder.go, second document: Result / Request / Response) -/

/-- Go `Response` contains the response to a DNS request (recorder.go). -/
structure Response where
  Hide : Bool
  «Type» : String
  Data : String
  TTL : Nat
  deriving Repr, DecidableEq

/-- The `Raw` field of a `Request`: verbatim protocol text snapshots. -/
structure RawRecord where
  Question : List String
  Answer : List String
  Nameserver : List String
  Extra : List String
  deriving Repr, DecidableEq

/-- Go `Request` contains the data for a request (recorder.go). Go's `error`
field is modelled as `Option String`. -/
structure Request where
  Hide : Bool
  «Type» : String
  Status : String
  Failure : Bool
  NotFound : Bool
  Error : Option String
  Responses : List Response
  Nameserver : List Response
  SOA : List Response
  Raw : RawRecord
  deriving Repr, DecidableEq

/-- Go `Result` is a response as received from a server (recorder.go). -/
structure Result where
  Hide : Bool
  Item : String
  Hostname : String
  Requests : List Request
  deriving Repr, DecidableEq

/-- Go `Request.Empty` (recorder.go): true if the request has no failure
status and no responses.  The Go code does not consult `Error`. -/
def Request.Empty (r : Request) : Bool :=
  if r.Failure then false
  else if r.Responses.length > 0 then false
  else true

/-- Go `Result.Empty` (recorder.go): true if every request is empty. -/
def Result.Empty (r : Result) : Bool :=
  r.Requests.all (fun q => q.Empty)

/-- Go `Result.Delegation` (recorder.go): empty result with authority
records on some request. -/
def Result.Delegation (r : Result) : Bool :=
  if !r.Empty then false
  else r.Requests.any (fun q => q.Nameserver.length > 0 || q.SOA.length > 0)

/-! ## Filters (filter.go)

The Go filter interfaces are function types; the concrete constructors
below mirror filter.go.  IP parsing and subnet membership are provided
by the Go standard library, outside the embedded core, so they appear
as parameters (`parseIP`, `contains`), as do compiled regular
expressions (`patterns` are match predicates on strings). -/

/-- Go `FilterNotFound` (filter.go): hides requests whose status was NXDOMAIN. -/
def FilterNotFound : Request → Bool :=
  fun r => r.NotFound

/-- Go `FilterEmptyResults` (filter.go): hides empty results. -/
def FilterEmptyResults : Result → Bool :=
  fun r => r.Empty

/-- Go `FilterDelegations` (filter.go): hides potential delegations. -/
def FilterDelegations : Result → Bool :=
  fun r => r.Delegation

/-- Go `FilterInSubnet` (filter.go): hides A/AAAA responses whose address
lies in one of the subnets.  Non-address record types and unparsable
data are never rejected. -/
def FilterInSubnet {α β : Type} (parseIP : String → Option α)
    (contains : β → α → Bool) (subnets : List β) : Response → Bool :=
  fun res =>
    if res.«Type» ≠ "A" ∧ res.«Type» ≠ "AAAA" then false
    else
      match parseIP res.Data with
      | none => false
      | some ip => subnets.any (fun n => contains n ip)

/-- Go `FilterNotInSubnet` (filter.go): hides A/AAAA responses whose address
lies in none of the subnets.  Non-address record types and unparsable
data are never rejected. -/
def FilterNotInSubnet {α β : Type} (parseIP : String → Option α)
    (contains : β → α → Bool) (subnets : List β) : Response → Bool :=
  fun res =>
    if res.«Type» ≠ "A" ∧ res.«Type» ≠ "AAAA" then false
    else
      match parseIP res.Data with
      | none => false
      | some ip => !(subnets.any (fun n => contains n ip))

/-- Go `FilterRejectCNAMEs` (filter.go): hides CNAME responses whose target
matches one of the patterns. -/
def FilterRejectCNAMEs (patterns : List (String → Bool)) : Response → Bool :=
  fun r =>
    if r.«Type» ≠ "CNAME" then false
    else patterns.any (fun pat => pat r.Data)

/-- Go `FilterRejectPTR` (filter.go): hides PTR responses whose target
matches one of the patterns. -/
def FilterRejectPTR (patterns : List (String → Bool)) : Response → Bool :=
  fun r =>
    if r.«Type» ≠ "PTR" then false
    else patterns.any (fun pat => pat r.Data)

/-- Go `Filters` collects all filters executed on Results (main.go). -/
structure Filters where
  Result : List (Result → Bool)
  Request : List (Request → Bool)
  Response : List (Response → Bool)

/-! ## runFilters (recorder.go, second document)

The Go loop structure is kept exactly: the Response-tier loop is nested
inside the Request-tier filter loop (one pass of Response marking per
non-matching Request filter), a Request-filter match marks the request
and breaks, and at the end the result is collapsed to hidden when every
request was hidden by a request filter (vacuously when there are no
requests). -/

/-- Inner Response loop body: the first matching response filter marks the
response hidden. -/
def applyResponseFilters (fr : List (Response → Bool)) (p : Response) : Response :=
  if fr.any (fun f => f p) then { p with Hide := true } else p

/-- The per-request part of `runFilters`: iterate over the request
filters; a match marks the request hidden and stops; otherwise all
response filters run over all responses and the next request filter is
tried.  Returns the updated request together with the Go loop's
`requestHidden` flag. -/
def processRequest : List (Request → Bool) → List (Response → Bool) →
    Request → Request × Bool
  | [], _, q => (q, false)
  | f :: fs, fr, q =>
    if f q then ({ q with Hide := true }, true)
    else processRequest fs fr { q with Responses := q.Responses.map (applyResponseFilters fr) }

/-- Go `runFilters` (recorder.go): result-tier filters short-circuit;
otherwise each request runs through `processRequest` and the result is
marked hidden when all requests were hidden (`allRequestsHidden`). -/
def runFilters (filters : Filters) (result : Result) : Result :=
  if filters.Result.any (fun f => f result) then { result with Hide := true }
  else
    let processed := result.Requests.map
      (fun q => processRequest filters.Request filters.Response q)
    { result with
      Requests := processed.map Prod.fst,
      Hide := result.Hide || processed.all Prod.snd }

example :
    runFilters ⟨[], [], [fun p => p.«Type» == "CNAME"]⟩
      ⟨false, "i", "h",
        [⟨false, "A", "NOERROR", false, false, none,
          [⟨false, "CNAME", "x", 3⟩], [], [], ⟨[], [], [], []⟩⟩]⟩ =
    ⟨false, "i", "h",
      [⟨false, "A", "NOERROR", false, false, none,
        [⟨false, "CNAME", "x", 3⟩], [], [], ⟨[], [], [], []⟩⟩]⟩ := rfl

example :
    runFilters ⟨[], [fun _ => false], [fun p => p.«Type» == "CNAME"]⟩
      ⟨false, "i", "h",
        [⟨false, "A", "NOERROR", false, false, none,
          [⟨false, "CNAME", "x", 3⟩], [], [], ⟨[], [], [], []⟩⟩]⟩ =
    ⟨false, "i", "h",
      [⟨false, "A", "NOERROR", false, false, none,
        [⟨true, "CNAME", "x", 3⟩], [], [], ⟨[], [], [], []⟩⟩]⟩ := rfl

/-! ## Resolver (response.go, second document)

`sendRequest` and `Resolver.lookup`.  The wire exchange performed by
the miekg/dns client is the spec's protocol collaborator: it is
abstracted as an `Except`-valued reply (transport error, or a decoded
message).  Record-type dispatch (`*dns.A`, `*dns.AAAA`, ...) becomes a
`kind` tag on wire records; `dns.RcodeToString` is a table of the dns
library and is passed as a function. -/

/-- The dynamic record type of a decoded wire record, as dispatched by
the type switch in `sendRequest`. -/
inductive RRKind where
  | A | AAAA | CNAME | MX | PTR | SOA | NS | Other
  deriving Repr, DecidableEq

/-- One decoded wire record: owner name, dynamic type, TTL, record data
(address or target name), and its raw string form. -/
structure WireRR where
  name : String
  kind : RRKind
  ttl : Nat
  rdata : String
  raw : String
  deriving Repr, DecidableEq

/-- A decoded DNS reply as exposed by the dns client: response code,
the (first) question's owner name, raw question strings, and the
answer / authority / additional sections. -/
structure WireMsg where
  rcode : Nat
  questionName : String
  questionRaw : List String
  answer : List WireRR
  ns : List WireRR
  extra : List WireRR
  deriving Repr, DecidableEq

/-- Go `cleanHostname` (response.go): removes a trailing dot if present. -/
def cleanHostname (h : String) : String :=
  if h.data = [] then h
  else if h.data.getLast? = some '.' then ⟨h.data.dropLast⟩
  else h

/-- Go `NewResponse` (recorder.go, second document). -/
def NewResponse (responseType : String) (ttl : Nat) (data : String) : Response :=
  { Hide := false, «Type» := responseType, TTL := ttl, Data := data }

/-- Go `collectRawValues` (response.go): the raw string of every record. -/
def collectRawValues (list : List WireRR) : List String :=
  list.map (fun item => item.raw)

/-- Go `sendRequest` (response.go, second document).  On a transport error
the request carries only its type and the error.  Otherwise status,
failure and not-found classification, answer records of known types
whose owner matches the question, authority SOA/NS records whose owner
matches the queried name, and the raw sections are collected.
`rcodeToString` abstracts the dns library's rcode table;
`dns.RcodeSuccess` is 0. -/
def sendRequest (rcodeToString : Nat → String) (name requestType : String)
    (exch : Except String WireMsg) : Request :=
  match exch with
  | .error e =>
    { Hide := false, «Type» := requestType, Status := "", Failure := false,
      NotFound := false, Error := some e, Responses := [], Nameserver := [],
      SOA := [], Raw := ⟨[], [], [], []⟩ }
  | .ok res =>
    let status := rcodeToString res.rcode
    { Hide := false
      «Type» := requestType
      Status := status
      Failure := res.rcode ≠ 0
      NotFound := status == "NXDOMAIN"
      Error := none
      Responses := res.answer.filterMap (fun ans =>
        if ans.name ≠ res.questionName then none
        else
          match ans.kind with
          | .A => some (NewResponse "A" ans.ttl ans.rdata)
          | .AAAA => some (NewResponse "AAAA" ans.ttl ans.rdata)
          | .CNAME => some (NewResponse "CNAME" ans.ttl (cleanHostname ans.rdata))
          | .MX => some (NewResponse "MX" ans.ttl (cleanHostname ans.rdata))
          | .PTR => some (NewResponse "PTR" ans.ttl (cleanHostname ans.rdata))
          | _ => none)
      Nameserver := res.ns.filterMap (fun ans =>
        if ans.kind = RRKind.NS ∧ ans.name = name
        then some (NewResponse "NS" ans.ttl (cleanHostname ans.rdata))
        else none)
      SOA := res.ns.filterMap (fun ans =>
        if ans.kind = RRKind.SOA ∧ ans.name = name
        then some (NewResponse "SOA" ans.ttl (cleanHostname ans.rdata))
        else none)
      Raw := ⟨res.questionRaw, collectRawValues res.answer,
              collectRawValues res.ns, collectRawValues res.extra⟩ }

/-- Go's `strings.Replace s pat rep -1` on character lists: replace every
non-overlapping occurrence of `pat`, scanning left to right.  The fuel
argument (instantiated with the list length) makes the recursion
structural; one unit of fuel is spent per emitted position, so
`length l` fuel always suffices. -/
def replaceChars (pat rep : List Char) : Nat → List Char → List Char
  | 0, l => l
  | _, [] => []
  | fuel + 1, c :: rest =>
    if pat ≠ [] ∧ pat.isPrefixOf (c :: rest) then
      rep ++ replaceChars pat rep fuel ((c :: rest).drop pat.length)
    else c :: replaceChars pat rep fuel rest

/-- Go `strings.Replace` with `n = -1` (replace all), as used by `lookup`. -/
def stringReplaceAll (s pat rep : String) : String :=
  ⟨replaceChars pat.data rep.data s.data.length s.data⟩

example : stringReplaceAll "host-FUZZ.example.org." "FUZZ" "3" = "host-3.example.org." := by decide

/-- The pure part of `Resolver.lookup` (response.go, second document):
substitute the item into the template, clean the hostname, and issue
one request per configured record type (the per-type wire exchange is
the `exchange` collaborator). -/
def lookup (template : String) (requestTypes : List String)
    (exchange : String → String → Request) (item : String) : Result :=
  let name := stringReplaceAll template "FUZZ" item
  { Hide := false
    Hostname := cleanHostname name
    Item := item
    Requests := requestTypes.map (fun requestType => exchange name requestType) }

/-! ## Range producer (not in the provided sources) -/

/-- Modelled from the spec: `producer.Range` (package
github.com/happal/taifun/producer, absent from the sources) emits
`format i` for `i` in `[first, last]` in increasing order and reports
the total count `last - first + 1` once. -/
def rangeValues (first last : Nat) (format : Nat → String) : List String :=
  (List.range (last + 1 - first)).map (fun k => format (first + k))

/-- Modelled from the spec: the total count reported by `producer.Range`. -/
def rangeCount (first last : Nat) : Nat := last + 1 - first

/-- The `"%d"` range format: decimal rendering, as `fmt.Sprintf "%d"`. -/
def formatDecimal (i : Nat) : String := toString i

example : rangeValues 1 5 formatDecimal = ["1", "2", "3", "4", "5"] := by decide

/-! ## The older result model serialized by this Recorder (result.go,
first document).  The Recorder document of recorder.go projects results
through `NewResult`, which reads the `A`/`AAAA` response pair of this
model. -/

namespace V1

/-- Go `Response` (result.go, first document). -/
structure Response where
  Status : String
  Failure : Bool
  Addresses : List String
  CNAMEs : List String
  SOA : List String
  Nameserver : List String
  Error : Option String
  deriving Repr, DecidableEq

/-- Go `Response.Empty` (result.go, first document). -/
def Response.Empty (r : Response) : Bool :=
  if r.Failure then false
  else if r.Addresses.length > 0 then false
  else if r.CNAMEs.length > 0 then false
  else true

/-- Go `Result` (result.go, first document). -/
structure Result where
  Hide : Bool
  NotFound : Bool
  Item : String
  Hostname : String
  A : Response
  AAAA : Response
  Nameservers : List String
  deriving Repr, DecidableEq

end V1

/-! ## Recorder (recorder.go, first document) -/

/-- Go `RecordedResponse` (recorder.go): the serialized form of a response.
The JSON `omitempty` error field is the empty string when no error. -/
structure RecordedResponse where
  Status : String
  Addresses : List String
  CNAMEs : List String
  Error : String
  deriving Repr, DecidableEq

/-- Go `RecordedResult` (recorder.go): the serialized form of a result.
The Go `Responses` map is modelled as an association list in insertion
order ("A" before "AAAA"). -/
structure RecordedResult where
  Item : String
  Hostname : String
  Responses : List (String × RecordedResponse)
  deriving Repr, DecidableEq

/-- Go `NewRecordedResponse` (recorder.go). -/
def NewRecordedResponse (r : V1.Response) : RecordedResponse :=
  { Status := r.Status
    Addresses := r.Addresses
    CNAMEs := r.CNAMEs
    Error := match r.Error with | some e => e | none => "" }

/-- Go `NewResult` (recorder.go): the serialized projection of a result;
empty A/AAAA responses are omitted from the map. -/
def NewResult (r : V1.Result) : RecordedResult :=
  { Item := r.Item
    Hostname := r.Hostname
    Responses :=
      (if !r.A.Empty then [("A", NewRecordedResponse r.A)] else []) ++
      (if !r.AAAA.Empty then [("AAAA", NewRecordedResponse r.AAAA)] else []) }

/-- The counters and accumulated list of the aggregate checkpoint `Data`
(recorder.go).  Timestamps and the static hostname/range fields do not
participate in any claim and are omitted.  The element type of the
results list is the projection's codomain. -/
structure RecData (P : Type) where
  totalRequests : Nat
  sentRequests : Nat
  shownResults : Nat
  hiddenResults : Nat
  results : List P
  cancelled : Bool
  deriving Repr, DecidableEq

/-- The state of `Recorder.Run`'s select loop: the aggregate data plus
the nil-ness of the two count channel variables (`inCount` is set to nil
once the count has been received; `countCh` is nil except between the
count's arrival and the first outbound send).  `stopped` marks that the
loop has exited; `err` holds the error of a failed periodic checkpoint
write. -/
structure RecState (R P : Type) where
  data : RecData P
  inCountOpen : Bool
  countChOpen : Bool
  stopped : Bool
  err : Option String
  deriving Repr, DecidableEq

/-- The initial state of `Recorder.Run`: zeroed aggregate, receiving on
`inCount` enabled, sending on `countCh` disabled. -/
def recInit {R P : Type} : RecState R P :=
  { data := ⟨0, 0, 0, 0, [], false⟩
    inCountOpen := true
    countChOpen := false
    stopped := false
    err := none }

/-- One firing of `Recorder.Run`'s select.  A `result` event carries the
received result and, when at least a second has elapsed since the last
checkpoint (`dump = some w`), the outcome `w` of the checkpoint write
(`some e` = write error `e`).  A `yield` event is a successful send of
`data.TotalRequests` on the outbound count channel and records the sent
value.  `cancel` is the context firing. -/
inductive RecEvent (R : Type) where
  | result (r : R) (dump : Option (Option String))
  | count (n : Nat)
  | yield (n : Nat)
  | cancel
  deriving Repr, DecidableEq

/-- The aggregate update for one received result (recorder.go lines
112-119): count it as sent, then as shown (appending its serialized
projection) or as hidden. -/
def recResultData {R P : Type} (hide : R → Bool) (proj : R → P)
    (d : RecData P) (r : R) : RecData P :=
  let d₁ := { d with sentRequests := d.sentRequests + 1 }
  if hide r then { d₁ with hiddenResults := d₁.hiddenResults + 1 }
  else { d₁ with shownResults := d₁.shownResults + 1,
                 results := d₁.results ++ [proj r] }

/-- One iteration of `Recorder.Run` (recorder.go lines 82-136),
parameterised by the hide flag and the serialization projection of the
result type.  `none` means the event cannot fire in this state: the
loop has exited, a `count` while `inCount` is nil, or a `yield` while
`countCh` is nil or with a value other than `data.TotalRequests`. -/
def recStep {R P : Type} (hide : R → Bool) (proj : R → P)
    (s : RecState R P) : RecEvent R → Option (RecState R P) :=
  fun ev =>
    if s.stopped then none
    else
      match ev with
      | .result r dump =>
        match dump with
        | some (some e) =>
          some { s with data := recResultData hide proj s.data r,
                        stopped := true, err := some e }
        | _ => some { s with data := recResultData hide proj s.data r }
      | .count n =>
        if s.inCountOpen then
          some { s with data := { s.data with totalRequests := n },
                        inCountOpen := false, countChOpen := true }
        else none
      | .yield n =>
        if s.countChOpen && n == s.data.totalRequests then
          some { s with countChOpen := false }
        else none
      | .cancel =>
        some { s with data := { s.data with cancelled := true }, stopped := true }

/-- Run the select loop over a trace of events. -/
def recSteps {R P : Type} (hide : R → Bool) (proj : R → P) :
    RecState R P → List (RecEvent R) → Option (RecState R P)
  | s, [] => some s
  | s, e :: es =>
    match recStep hide proj s e with
    | none => none
    | some s' => recSteps hide proj s' es

/-- The value `Recorder.Run` returns once the loop has exited: a
periodic-write error if one occurred (the loop returned it directly);
otherwise the outcome of the final checkpoint write (`finalWrite`),
else the accumulated aggregate. -/
def recReturn {R P : Type} (s : RecState R P) (finalWrite : Option String) :
    Except String (RecData P) :=
  match s.err with
  | some e => .error e
  | none =>
    match finalWrite with
    | some e => .error e
    | none => .ok s.data

/-- Whether an event is an outbound count send. -/
def isYield {R : Type} (e : RecEvent R) : Bool :=
  match e with | .yield _ => true | _ => false

/-- The number of outbound count sends in a trace. -/
def countYields {R : Type} (evts : List (RecEvent R)) : Nat :=
  evts.countP isYield

/-- 1 for an outbound count send, 0 otherwise. -/
def yieldWeight {R : Type} (e : RecEvent R) : Nat :=
  if isYield e then 1 else 0

example :
    recSteps V1.Result.Hide NewResult recInit [RecEvent.count 5, RecEvent.yield 5] =
    some { data := ⟨5, 0, 0, 0, [], false⟩, inCountOpen := false,
           countChOpen := false, stopped := false, err := none } := rfl

example :
    recSteps V1.Result.Hide NewResult recInit
      [RecEvent.count 5, RecEvent.yield 5, RecEvent.yield 5] = none := rfl

/-- How many outbound count sends the machine can still perform from a
state: one per currently-enabled phase of the one-shot handoff. -/
def recBudget {R P : Type} (s : RecState R P) : Nat :=
  if s.countChOpen then (if s.inCountOpen then 2 else 1)
  else (if s.inCountOpen then 1 else 0)

lemma recStep_stopped {R P : Type} (hide : R → Bool) (proj : R → P)
    (s : RecState R P) (e : RecEvent R) (h : s.stopped = true) :
    recStep hide proj s e = none := by
  unfold recStep
  rw [h]
  rfl

lemma recStep_result_eq {R P : Type} (hide : R → Bool) (proj : R → P)
    (s : RecState R P) (r : R) (dump : Option (Option String))
    (hst : s.stopped = false) :
    recStep hide proj s (RecEvent.result r dump) =
      match dump with
      | some (some e) =>
        some { s with data := recResultData hide proj s.data r,
                      stopped := true, err := some e }
      | _ => some { s with data := recResultData hide proj s.data r } := by
  simp [recStep, hst]

lemma recStep_count_eq {R P : Type} (hide : R → Bool) (proj : R → P)
    (s : RecState R P) (n : Nat) (hst : s.stopped = false) :
    recStep hide proj s (RecEvent.count n) =
      if s.inCountOpen then
        some { s with data := { s.data with totalRequests := n },
                      inCountOpen := false, countChOpen := true }
      else none := by
  simp [recStep, hst]

lemma recStep_yield_eq {R P : Type} (hide : R → Bool) (proj : R → P)
    (s : RecState R P) (n : Nat) (hst : s.stopped = false) :
    recStep hide proj s (RecEvent.yield n) =
      if s.countChOpen && n == s.data.totalRequests then
        some { s with countChOpen := false }
      else none := by
  simp [recStep, hst]

lemma recStep_cancel_eq {R P : Type} (hide : R → Bool) (proj : R → P)
    (s : RecState R P) (hst : s.stopped = false) :
    recStep hide proj s RecEvent.cancel =
      some { s with data := { s.data with cancelled := true }, stopped := true } := by
  simp [recStep, hst]

lemma recResultData_totalRequests {R P : Type} (hide : R → Bool) (proj : R → P)
    (d : RecData P) (r : R) :
    (recResultData hide proj d r).totalRequests = d.totalRequests := by
  unfold recResultData
  split <;> rfl

lemma recResultData_sentRequests {R P : Type} (hide : R → Bool) (proj : R → P)
    (d : RecData P) (r : R) :
    (recResultData hide proj d r).sentRequests = d.sentRequests + 1 := by
  unfold recResultData
  split <;> rfl

lemma recStep_budget {R P : Type} (hide : R → Bool) (proj : R → P)
    (s s' : RecState R P) (e : RecEvent R)
    (h : recStep hide proj s e = some s') :
    yieldWeight e + recBudget s' ≤ recBudget s := by
  by_cases hst : s.stopped = true
  · rw [recStep_stopped hide proj s e hst] at h
    exact absurd h (by simp)
  · have hst0 : s.stopped = false := by simpa using hst
    cases e with
    | result r dump =>
      rw [recStep_result_eq hide proj s r dump hst0] at h
      rcases dump with _ | w
      · simp only [Option.some.injEq] at h
        subst h
        simp [recBudget, yieldWeight, isYield]
      · rcases w with _ | e
        · simp only [Option.some.injEq] at h
          subst h
          simp [recBudget, yieldWeight, isYield]
        · simp only [Option.some.injEq] at h
          subst h
          simp [recBudget, yieldWeight, isYield]
    | count n =>
      rw [recStep_count_eq hide proj s n hst0] at h
      by_cases hin : s.inCountOpen = true
      · rw [hin] at h
        simp only [if_true, Option.some.injEq] at h
        subst h
        by_cases hco : s.countChOpen = true <;>
          simp [recBudget, yieldWeight, isYield, hin, hco]
      · have hin0 : s.inCountOpen = false := by simpa using hin
        rw [hin0] at h
        simp at h
    | yield n =>
      rw [recStep_yield_eq hide proj s n hst0] at h
      by_cases hc : (s.countChOpen && n == s.data.totalRequests) = true
      · rw [hc] at h
        simp only [if_true, Option.some.injEq] at h
        subst h
        have hopen : s.countChOpen = true := (Bool.and_eq_true _ _ |>.mp hc).1
        by_cases hio : s.inCountOpen = true <;>
          simp [recBudget, yieldWeight, isYield, hopen, hio]
      · have hc0 : (s.countChOpen && n == s.data.totalRequests) = false := by simpa using hc
        rw [hc0] at h
        simp at h
    | cancel =>
      rw [recStep_cancel_eq hide proj s hst0] at h
      simp only [Option.some.injEq] at h
      subst h
      simp [recBudget, yieldWeight, isYield]

lemma countYields_cons {R : Type} (e : RecEvent R) (es : List (RecEvent R)) :
    countYields (e :: es) = countYields es + yieldWeight e := by
  unfold countYields yieldWeight
  rw [List.countP_cons]

/-- Along any valid run, the number of outbound count sends is bounded
by the starting state's budget. -/
lemma recSteps_budget {R P : Type} (hide : R → Bool) (proj : R → P) :
    ∀ (evts : List (RecEvent R)) (s s' : RecState R P),
      recSteps hide proj s evts = some s' →
      countYields evts + recBudget s' ≤ recBudget s := by
  intro evts
  induction evts with
  | nil =>
    intro s s' h
    simp only [recSteps, Option.some.injEq] at h
    subst h
    simp [countYields]
  | cons e es ih =>
    intro s s' h
    unfold recSteps at h
    rcases hstep : recStep hide proj s e with _ | s₁
    · rw [hstep] at h
      simp at h
    · rw [hstep] at h
      have h1 := ih s₁ s' h
      have h2 := recStep_budget hide proj s s₁ e hstep
      rw [countYields_cons]
      omega

/-- Splitting a valid run at a trace decomposition. -/
lemma recSteps_append {R P : Type} (hide : R → Bool) (proj : R → P) :
    ∀ (a b : List (RecEvent R)) (s s'' : RecState R P),
      recSteps hide proj s (a ++ b) = some s'' →
      ∃ t, recSteps hide proj s a = some t ∧ recSteps hide proj t b = some s'' := by
  intro a
  induction a with
  | nil =>
    intro b s s'' h
    exact ⟨s, rfl, h⟩
  | cons e a ih =>
    intro b s s'' h
    rw [List.cons_append] at h
    unfold recSteps at h
    rcases hstep : recStep hide proj s e with _ | s₁
    · rw [hstep] at h
      simp at h
    · rw [hstep] at h
      obtain ⟨t, h1, h2⟩ := ih b s₁ s'' h
      refine ⟨t, ?_, h2⟩
      unfold recSteps
      rw [hstep]
      exact h1

/-- If the outbound count side is enabled, the inbound count arrived
earlier in the trace, carrying exactly the now-cached total (unless it
was already enabled at the start). -/
lemma recSteps_chOpen_origin {R P : Type} (hide : R → Bool) (proj : R → P) :
    ∀ (l : List (RecEvent R)) (s₀ s : RecState R P),
      recSteps hide proj s₀ l = some s → s.countChOpen = true →
      (s₀.countChOpen = true ∧ s.data.totalRequests = s₀.data.totalRequests) ∨
      ∃ l₁ l₂, l = l₁ ++ RecEvent.count s.data.totalRequests :: l₂ := by
  intro l
  induction l with
  | nil =>
    intro s₀ s h hopen
    simp only [recSteps, Option.some.injEq] at h
    subst h
    exact Or.inl ⟨hopen, rfl⟩
  | cons e es ih =>
    intro s₀ s h hopen
    unfold recSteps at h
    rcases hstep : recStep hide proj s₀ e with _ | s₁
    · rw [hstep] at h
      simp at h
    · rw [hstep] at h
      rcases ih s₁ s h hopen with ⟨hop1, htot1⟩ | ⟨l₁, l₂, hdecomp⟩
      · by_cases hst : s₀.stopped = true
        · rw [recStep_stopped hide proj s₀ e hst] at hstep
          exact absurd hstep (by simp)
        · have hst0 : s₀.stopped = false := by simpa using hst
          cases e with
          | result r dump =>
            rw [recStep_result_eq hide proj s₀ r dump hst0] at hstep
            rcases dump with _ | w
            · simp only [Option.some.injEq] at hstep
              subst hstep
              exact Or.inl ⟨hop1, htot1.trans (recResultData_totalRequests hide proj _ r)⟩
            · rcases w with _ | err
              · simp only [Option.some.injEq] at hstep
                subst hstep
                exact Or.inl ⟨hop1, htot1.trans (recResultData_totalRequests hide proj _ r)⟩
              · simp only [Option.some.injEq] at hstep
                subst hstep
                exact Or.inl ⟨hop1, htot1.trans (recResultData_totalRequests hide proj _ r)⟩
          | count n =>
            rw [recStep_count_eq hide proj s₀ n hst0] at hstep
            by_cases hin : s₀.inCountOpen = true
            · rw [hin] at hstep
              simp only [if_true, Option.some.injEq] at hstep
              subst hstep
              refine Or.inr ⟨[], es, ?_⟩
              have hn : s.data.totalRequests = n := htot1
              rw [hn]
              rfl
            · have hin0 : s₀.inCountOpen = false := by simpa using hin
              rw [hin0] at hstep
              simp at hstep
          | yield n =>
            rw [recStep_yield_eq hide proj s₀ n hst0] at hstep
            by_cases hc : (s₀.countChOpen && n == s₀.data.totalRequests) = true
            · rw [hc] at hstep
              simp only [if_true, Option.some.injEq] at hstep
              subst hstep
              simp at hop1
            · have hc0 : (s₀.countChOpen && n == s₀.data.totalRequests) = false := by
                simpa using hc
              rw [hc0] at hstep
              simp at hstep
          | cancel =>
            rw [recStep_cancel_eq hide proj s₀ hst0] at hstep
            simp only [Option.some.injEq] at hstep
            subst hstep
            exact Or.inl ⟨hop1, htot1⟩
      · exact Or.inr ⟨e :: l₁, l₂, by rw [hdecomp, List.cons_append]⟩


/-! ## Hide-flag erasure and Hide-blind predicates

`eraseHide*` forgets exactly the Hide flags that `runFilters` may set
(the result's, each request's, and each answer response's); every other
field, including the `Nameserver`/`SOA` lists, is kept verbatim.  A
predicate is Hide-blind when it cannot distinguish records that agree
after erasure; every filter constructed in filter.go is Hide-blind. -/

/-- Forget a response's Hide flag. -/
def eraseHideResp (p : Response) : Response := { p with Hide := false }

/-- Forget a request's Hide flag and those of its answer responses. -/
def eraseHideReq (q : Request) : Request :=
  { q with Hide := false, Responses := q.Responses.map eraseHideResp }

/-- Forget every Hide flag a result's classification may set. -/
def eraseHide (r : Result) : Result :=
  { r with Hide := false, Requests := r.Requests.map eraseHideReq }

/-- A response predicate that only reads non-Hide fields. -/
def ResponseHideBlind (f : Response → Bool) : Prop :=
  ∀ p p' : Response, eraseHideResp p = eraseHideResp p' → f p = f p'

/-- A request predicate that only reads non-Hide fields. -/
def RequestHideBlind (f : Request → Bool) : Prop :=
  ∀ q q' : Request, eraseHideReq q = eraseHideReq q' → f q = f q'

/-- A result predicate that only reads non-Hide fields. -/
def ResultHideBlind (f : Result → Bool) : Prop :=
  ∀ r r' : Result, eraseHide r = eraseHide r' → f r = f r'

lemma eraseHideResp_mark (p : Response) :
    eraseHideResp { p with Hide := true } = eraseHideResp p := rfl

lemma eraseHideResp_applyResponseFilters (fr : List (Response → Bool)) (p : Response) :
    eraseHideResp (applyResponseFilters fr p) = eraseHideResp p := by
  unfold applyResponseFilters
  split <;> rfl

lemma applyResponseFilters_hide_mono (fr : List (Response → Bool)) (p : Response)
    (h : p.Hide = true) : (applyResponseFilters fr p).Hide = true := by
  unfold applyResponseFilters
  split
  · rfl
  · exact h

/-- Erasure commutes with one response-marking pass. -/
lemma eraseHideReq_markResponses (fr : List (Response → Bool)) (q : Request) :
    eraseHideReq { q with Responses := q.Responses.map (applyResponseFilters fr) } =
    eraseHideReq q := by
  simp only [eraseHideReq, List.map_map]
  congr 1
  apply List.map_congr_left
  intro p _
  exact eraseHideResp_applyResponseFilters fr p

lemma eraseHideReq_mark (q : Request) :
    eraseHideReq { q with Hide := true } = eraseHideReq q := rfl

/-- Go `processRequest` only sets Hide flags within the request. -/
lemma processRequest_eraseHideReq (fs : List (Request → Bool))
    (fr : List (Response → Bool)) (q : Request) :
    eraseHideReq (processRequest fs fr q).1 = eraseHideReq q := by
  induction fs generalizing q with
  | nil => rfl
  | cons f fs ih =>
    unfold processRequest
    split
    · exact eraseHideReq_mark q
    · rw [ih]
      exact eraseHideReq_markResponses fr q

/-- Go `processRequest` never lowers the request's Hide flag. -/
lemma processRequest_hide_mono (fs : List (Request → Bool))
    (fr : List (Response → Bool)) (q : Request) (h : q.Hide = true) :
    ((processRequest fs fr q).1).Hide = true := by
  induction fs generalizing q with
  | nil => exact h
  | cons f fs ih =>
    unfold processRequest
    split
    · rfl
    · exact ih _ h

/-- Pairwise Hide-monotonicity between response lists. -/
def RespMono (l l' : List Response) : Prop :=
  List.Forall₂ (fun p p' => p.Hide = true → p'.Hide = true) l l'

lemma respMono_refl (l : List Response) : RespMono l l := by
  induction l with
  | nil => exact List.Forall₂.nil
  | cons p l ih => exact List.Forall₂.cons (fun h => h) ih

lemma respMono_map_applyResponseFilters (fr : List (Response → Bool)) (l : List Response) :
    RespMono l (l.map (applyResponseFilters fr)) := by
  induction l with
  | nil => exact List.Forall₂.nil
  | cons p l ih =>
    exact List.Forall₂.cons (applyResponseFilters_hide_mono fr p) ih

lemma respMono_trans {l m n : List Response}
    (h₁ : RespMono l m) (h₂ : RespMono m n) : RespMono l n := by
  induction h₁ generalizing n with
  | nil => cases h₂; exact List.Forall₂.nil
  | cons hab hrest ih =>
    cases h₂ with
    | cons hbc hrest' => exact List.Forall₂.cons (fun h => hbc (hab h)) (ih hrest')

/-- Go `processRequest` never lowers any response's Hide flag. -/
lemma processRequest_respMono (fs : List (Request → Bool))
    (fr : List (Response → Bool)) (q : Request) :
    RespMono q.Responses ((processRequest fs fr q).1).Responses := by
  induction fs generalizing q with
  | nil => exact respMono_refl _
  | cons f fs ih =>
    unfold processRequest
    split
    · exact respMono_refl _
    · exact respMono_trans (respMono_map_applyResponseFilters fr q.Responses)
        (ih { q with Responses := q.Responses.map (applyResponseFilters fr) })

/-- The Go loop's `requestHidden` flag is exactly whether the request's
Hide flag was raised, for a request that entered unmarked. -/
lemma processRequest_flag (fs : List (Request → Bool))
    (fr : List (Response → Bool)) (q : Request) (h : q.Hide = false) :
    ((processRequest fs fr q).1).Hide = (processRequest fs fr q).2 := by
  induction fs generalizing q with
  | nil => simp [processRequest, h]
  | cons f fs ih =>
    unfold processRequest
    split
    · rfl
    · exact ih _ h

/-- Evaluating a list of predicates at equal-up-to-Hide records. -/
lemma list_any_congr {α : Type} (l : List (α → Bool)) (a b : α)
    (h : ∀ f ∈ l, f a = f b) :
    l.any (fun f => f a) = l.any (fun f => f b) := by
  induction l with
  | nil => rfl
  | cons f l ih =>
    simp only [List.any_cons]
    rw [h f (List.mem_cons_self f l), ih (fun g hg => h g (List.mem_cons_of_mem f hg))]

/-- Pointwise relation to a mapped list. -/
lemma forall2_map_of_pointwise {α β : Type} (R : α → β → Prop) (g : α → β)
    (l : List α) (h : ∀ a, R a (g a)) : List.Forall₂ R l (l.map g) := by
  induction l with
  | nil => exact List.Forall₂.nil
  | cons a l ih => exact List.Forall₂.cons (h a) ih

/-- Reflexive pointwise relation on a list. -/
lemma forall2_refl_of_pointwise {α : Type} (R : α → α → Prop)
    (l : List α) (h : ∀ a, R a a) : List.Forall₂ R l l := by
  induction l with
  | nil => exact List.Forall₂.nil
  | cons a l ih => exact List.Forall₂.cons (h a) ih

/-- Go `runFilters` when some result-tier filter matches: short-circuit. -/
lemma runFilters_of_match (F : Filters) (r : Result)
    (h : F.Result.any (fun f => f r) = true) :
    runFilters F r = { r with Hide := true } := by
  unfold runFilters
  rw [h]
  rfl

/-- Go `runFilters` when no result-tier filter matches: every request is
processed and the all-hidden collapse applies. -/
lemma runFilters_of_not_match (F : Filters) (r : Result)
    (h : F.Result.any (fun f => f r) = false) :
    runFilters F r =
      { r with
        Requests :=
          (r.Requests.map (fun q => processRequest F.Request F.Response q)).map Prod.fst,
        Hide := r.Hide ||
          (r.Requests.map (fun q => processRequest F.Request F.Response q)).all Prod.snd } := by
  unfold runFilters
  rw [h]
  rfl

/-- Classification only sets Hide flags: everything else survives. -/
lemma runFilters_eraseHide (F : Filters) (r : Result) :
    eraseHide (runFilters F r) = eraseHide r := by
  by_cases h : F.Result.any (fun f => f r) = true
  · rw [runFilters_of_match F r h]
    rfl
  · rw [runFilters_of_not_match F r (by simpa using h)]
    simp only [eraseHide, List.map_map]
    congr 1
    apply List.map_congr_left
    intro q _
    exact processRequest_eraseHideReq F.Request F.Response q

/-- Classification never lowers the result's Hide flag. -/
lemma runFilters_hide_mono (F : Filters) (r : Result) (h : r.Hide = true) :
    (runFilters F r).Hide = true := by
  by_cases hm : F.Result.any (fun f => f r) = true
  · rw [runFilters_of_match F r hm]
  · rw [runFilters_of_not_match F r (by simpa using hm)]
    simp [h]

/-- Classification never lowers a request's or response's Hide flag,
and never adds or removes requests. -/
lemma runFilters_requests_mono (F : Filters) (r : Result) :
    List.Forall₂
      (fun q q' => (q.Hide = true → q'.Hide = true) ∧ RespMono q.Responses q'.Responses)
      r.Requests (runFilters F r).Requests := by
  by_cases hm : F.Result.any (fun f => f r) = true
  · rw [runFilters_of_match F r hm]
    exact forall2_refl_of_pointwise _ _ (fun q => ⟨fun h => h, respMono_refl _⟩)
  · rw [runFilters_of_not_match F r (by simpa using hm)]
    simp only [List.map_map]
    exact forall2_map_of_pointwise _ _ _
      (fun q => ⟨processRequest_hide_mono F.Request F.Response q,
                 processRequest_respMono F.Request F.Response q⟩)

/-- Go `applyResponseFilters` when some response filter matches. -/
lemma applyResponseFilters_of_match (fr : List (Response → Bool)) (p : Response)
    (h : fr.any (fun f => f p) = true) :
    applyResponseFilters fr p = { p with Hide := true } := by
  simp [applyResponseFilters, h]

/-- Go `applyResponseFilters` when no response filter matches. -/
lemma applyResponseFilters_of_not_match (fr : List (Response → Bool)) (p : Response)
    (h : fr.any (fun f => f p) = false) :
    applyResponseFilters fr p = p := by
  simp [applyResponseFilters, h]

/-- One response-marking pass is idempotent for Hide-blind filters. -/
lemma applyResponseFilters_idem (fr : List (Response → Bool))
    (hfr : ∀ f ∈ fr, ResponseHideBlind f) (p : Response) :
    applyResponseFilters fr (applyResponseFilters fr p) = applyResponseFilters fr p := by
  have hsame : fr.any (fun f => f (applyResponseFilters fr p)) = fr.any (fun f => f p) :=
    list_any_congr fr _ _ (fun f hf =>
      hfr f hf _ _ (eraseHideResp_applyResponseFilters fr p))
  by_cases h : fr.any (fun f => f p) = true
  · rw [applyResponseFilters_of_match fr p h]
    rw [applyResponseFilters_of_match fr _ (by rw [applyResponseFilters_of_match fr p h] at hsame; exact hsame.trans h)]
  · have h0 : fr.any (fun f => f p) = false := by simpa using h
    rw [applyResponseFilters_of_not_match fr p h0, applyResponseFilters_of_not_match fr p h0]

/-- A request whose responses are a fixed point of the marking pass. -/
def RespStable (fr : List (Response → Bool)) (q : Request) : Prop :=
  q.Responses.map (applyResponseFilters fr) = q.Responses

lemma respStable_mark (fr : List (Response → Bool))
    (hfr : ∀ f ∈ fr, ResponseHideBlind f) (q : Request) :
    RespStable fr { q with Responses := q.Responses.map (applyResponseFilters fr) } := by
  show (q.Responses.map (applyResponseFilters fr)).map (applyResponseFilters fr) = _
  rw [List.map_map]
  apply List.map_congr_left
  intro p _
  exact applyResponseFilters_idem fr hfr p

lemma respStable_elim (fr : List (Response → Bool)) (q : Request)
    (h : RespStable fr q) :
    ({ q with Responses := q.Responses.map (applyResponseFilters fr) } : Request) = q := by
  rw [h]

lemma processRequest_respStable (fs : List (Request → Bool)) (fr : List (Response → Bool))
    (_hfr : ∀ f ∈ fr, ResponseHideBlind f) (q : Request) (h : RespStable fr q) :
    RespStable fr (processRequest fs fr q).1 := by
  induction fs generalizing q with
  | nil => exact h
  | cons f fs ih =>
    unfold processRequest
    split
    · exact h
    · rw [respStable_elim fr q h]
      exact ih q h

/-- Go `processRequest` when the first request filter matches. -/
lemma processRequest_cons_of_match (f : Request → Bool) (fs : List (Request → Bool))
    (fr : List (Response → Bool)) (q : Request) (h : f q = true) :
    processRequest (f :: fs) fr q = ({ q with Hide := true }, true) := by
  simp [processRequest, h]

/-- Go `processRequest` when the first request filter does not match: one
response-marking pass, then the remaining filters. -/
lemma processRequest_cons_of_not_match (f : Request → Bool) (fs : List (Request → Bool))
    (fr : List (Response → Bool)) (q : Request) (h : f q = false) :
    processRequest (f :: fs) fr q =
      processRequest fs fr { q with Responses := q.Responses.map (applyResponseFilters fr) } := by
  simp [processRequest, h]

/-- Re-processing an already-processed request is a no-op (its Hide
flags are already final) for Hide-blind filters. -/
lemma processRequest_idem (fs : List (Request → Bool)) (fr : List (Response → Bool))
    (hfs : ∀ f ∈ fs, RequestHideBlind f) (hfr : ∀ f ∈ fr, ResponseHideBlind f)
    (q : Request) :
    processRequest fs fr (processRequest fs fr q).1 = processRequest fs fr q := by
  induction fs generalizing q with
  | nil => rfl
  | cons f fs ih =>
    have hfblind : RequestHideBlind f := hfs f (List.mem_cons_self f fs)
    have hfs' : ∀ g ∈ fs, RequestHideBlind g :=
      fun g hg => hfs g (List.mem_cons_of_mem f hg)
    by_cases hf : f q = true
    · rw [processRequest_cons_of_match f fs fr q hf]
      have hf' : f ({ q with Hide := true } : Request) = true := by
        rw [hfblind _ q (eraseHideReq_mark q)]
        exact hf
      rw [processRequest_cons_of_match f fs fr _ hf']
    · have hf0 : f q = false := by simpa using hf
      rw [processRequest_cons_of_not_match f fs fr q hf0]
      set q₂ : Request := { q with Responses := q.Responses.map (applyResponseFilters fr) } with hq₂
      have hstab₂ : RespStable fr q₂ := respStable_mark fr hfr q
      have hstab' : RespStable fr (processRequest fs fr q₂).1 :=
        processRequest_respStable fs fr hfr q₂ hstab₂
      have herase : eraseHideReq (processRequest fs fr q₂).1 = eraseHideReq q := by
        rw [processRequest_eraseHideReq]
        exact eraseHideReq_markResponses fr q
      have hf'' : f (processRequest fs fr q₂).1 = false := by
        rw [hfblind _ q herase]
        exact hf0
      rw [processRequest_cons_of_not_match f fs fr _ hf'']
      rw [respStable_elim fr _ hstab']
      exact ih hfs' q₂

/-- Two results with equal fields are equal. -/
lemma result_ext (r₁ r₂ : Result) (h1 : r₁.Hide = r₂.Hide) (h2 : r₁.Item = r₂.Item)
    (h3 : r₁.Hostname = r₂.Hostname) (h4 : r₁.Requests = r₂.Requests) : r₁ = r₂ := by
  cases r₁
  cases r₂
  simp_all

/-- Running the classification twice equals running it once, for
Hide-blind filters. -/
lemma runFilters_idem (F : Filters) (r : Result)
    (h1 : ∀ f ∈ F.Result, ResultHideBlind f)
    (h2 : ∀ f ∈ F.Request, RequestHideBlind f)
    (h3 : ∀ f ∈ F.Response, ResponseHideBlind f) :
    runFilters F (runFilters F r) = runFilters F r := by
  have hany : F.Result.any (fun f => f (runFilters F r)) = F.Result.any (fun f => f r) :=
    list_any_congr _ _ _ (fun f hf => h1 f hf _ _ (runFilters_eraseHide F r))
  by_cases hm : F.Result.any (fun f => f r) = true
  · rw [runFilters_of_match F r hm]
    rw [runFilters_of_match F r hm] at hany
    rw [runFilters_of_match F _ (hany.trans hm)]
  · have hm0 : F.Result.any (fun f => f r) = false := by simpa using hm
    rw [runFilters_of_not_match F r hm0]
    rw [runFilters_of_not_match F r hm0] at hany
    set r' : Result :=
      { r with
        Requests :=
          (r.Requests.map (fun q => processRequest F.Request F.Response q)).map Prod.fst,
        Hide := r.Hide ||
          (r.Requests.map (fun q => processRequest F.Request F.Response q)).all Prod.snd }
      with hr'
    rw [runFilters_of_not_match F r' (hany.trans hm0)]
    have hmaps : r'.Requests.map (fun q => processRequest F.Request F.Response q) =
        r.Requests.map (fun q => processRequest F.Request F.Response q) := by
      rw [hr']
      show ((r.Requests.map (fun q => processRequest F.Request F.Response q)).map
        Prod.fst).map (fun q => processRequest F.Request F.Response q) = _
      simp only [List.map_map]
      apply List.map_congr_left
      intro q _
      exact processRequest_idem F.Request F.Response h2 h3 q
    have hHide : r'.Hide = (r.Hide ||
        (r.Requests.map (fun q => processRequest F.Request F.Response q)).all Prod.snd) := by
      rw [hr']
    apply result_ext
    · show (r'.Hide ||
        (r'.Requests.map (fun q => processRequest F.Request F.Response q)).all Prod.snd) =
        r'.Hide
      rw [hmaps, hHide, Bool.or_assoc, Bool.or_self]
    · rfl
    · rfl
    · show (r'.Requests.map (fun q => processRequest F.Request F.Response q)).map Prod.fst =
        r'.Requests
      rw [hmaps, hr']

/-- Elementwise-equal predicates give equal `List.all`. -/
lemma list_all_pointwise {α : Type} {f g : α → Bool} :
    ∀ l : List α, (∀ a ∈ l, f a = g a) → l.all f = l.all g
  | [], _ => rfl
  | a :: l, h => by
    simp only [List.all_cons]
    rw [h a (List.mem_cons_self a l),
        list_all_pointwise l (fun b hb => h b (List.mem_cons_of_mem a hb))]

/-- Elementwise-equal predicates give equal `List.any`. -/
lemma list_any_pointwise {α : Type} {f g : α → Bool} :
    ∀ l : List α, (∀ a ∈ l, f a = g a) → l.any f = l.any g
  | [], _ => rfl
  | a :: l, h => by
    simp only [List.any_cons]
    rw [h a (List.mem_cons_self a l),
        list_any_pointwise l (fun b hb => h b (List.mem_cons_of_mem a hb))]

/-! Hide-blindness of the filters constructed in filter.go. -/

lemma request_empty_eraseHideReq (q : Request) :
    (eraseHideReq q).Empty = q.Empty := by
  simp [Request.Empty, eraseHideReq]

lemma result_empty_eraseHide (r : Result) :
    (eraseHide r).Empty = r.Empty := by
  simp only [Result.Empty, eraseHide, List.all_map]
  exact list_all_pointwise _ (fun q _ => request_empty_eraseHideReq q)

lemma result_delegation_eraseHide (r : Result) :
    (eraseHide r).Delegation = r.Delegation := by
  simp only [Result.Delegation, result_empty_eraseHide]
  rcases hb : (!r.Empty) with _ | _
  · simp only [eraseHide, List.any_map]
    apply list_any_pointwise
    intro q _
    rfl
  · rfl

lemma filterNotFound_blind : RequestHideBlind FilterNotFound := by
  intro q q' h
  show q.NotFound = q'.NotFound
  have := congrArg Request.NotFound h
  simpa [eraseHideReq] using this

lemma filterEmptyResults_blind : ResultHideBlind FilterEmptyResults := by
  intro r r' h
  show r.Empty = r'.Empty
  rw [← result_empty_eraseHide r, ← result_empty_eraseHide r', h]

lemma filterDelegations_blind : ResultHideBlind FilterDelegations := by
  intro r r' h
  show r.Delegation = r'.Delegation
  rw [← result_delegation_eraseHide r, ← result_delegation_eraseHide r', h]

lemma eraseHideResp_eq_fields (p p' : Response) (h : eraseHideResp p = eraseHideResp p') :
    p.«Type» = p'.«Type» ∧ p.Data = p'.Data := by
  refine ⟨?_, ?_⟩
  · have := congrArg Response.«Type» h
    simpa [eraseHideResp] using this
  · have := congrArg Response.Data h
    simpa [eraseHideResp] using this

lemma filterInSubnet_blind {α β : Type} (parseIP : String → Option α)
    (contains : β → α → Bool) (subnets : List β) :
    ResponseHideBlind (FilterInSubnet parseIP contains subnets) := by
  intro p p' h
  obtain ⟨ht, hd⟩ := eraseHideResp_eq_fields p p' h
  simp only [FilterInSubnet, ht, hd]

lemma filterNotInSubnet_blind {α β : Type} (parseIP : String → Option α)
    (contains : β → α → Bool) (subnets : List β) :
    ResponseHideBlind (FilterNotInSubnet parseIP contains subnets) := by
  intro p p' h
  obtain ⟨ht, hd⟩ := eraseHideResp_eq_fields p p' h
  simp only [FilterNotInSubnet, ht, hd]

lemma filterRejectCNAMEs_blind (patterns : List (String → Bool)) :
    ResponseHideBlind (FilterRejectCNAMEs patterns) := by
  intro p p' h
  obtain ⟨ht, hd⟩ := eraseHideResp_eq_fields p p' h
  simp only [FilterRejectCNAMEs, ht, hd]

lemma filterRejectPTR_blind (patterns : List (String → Bool)) :
    ResponseHideBlind (FilterRejectPTR patterns) := by
  intro p p' h
  obtain ⟨ht, hd⟩ := eraseHideResp_eq_fields p p' h
  simp only [FilterRejectPTR, ht, hd]

/-- For initially-unmarked requests, "all requests ended hidden" agrees
with the Go loop's `allRequestsHidden` flag. -/
lemma processed_all_flag (fs : List (Request → Bool)) (fr : List (Response → Bool))
    (l : List Request) (h : ∀ q ∈ l, q.Hide = false) :
    ((l.map (fun q => processRequest fs fr q)).map Prod.fst).all (fun q => q.Hide) =
    (l.map (fun q => processRequest fs fr q)).all Prod.snd := by
  induction l with
  | nil => rfl
  | cons q l ih =>
    simp only [List.map_cons, List.all_cons]
    rw [processRequest_flag fs fr q (h q (List.mem_cons_self q l)),
        ih (fun p hp => h p (List.mem_cons_of_mem q hp))]






/-! ## Claims -/

/-- C1, counterexample.  The claim says the Recorder's outbound count
channel yields the cached value on every request after the inbound
count has arrived, until the run ends.  In the code, the successful
send sets `countCh` back to nil and `inCount` is already nil, so only
the first request is ever served: after `count 5` followed by one
served request the run has not ended (`stopped = false`), yet a second
outbound request can never fire. -/
theorem C1_count_handoff_cex :
    recSteps V1.Result.Hide NewResult recInit [RecEvent.count 5, RecEvent.yield 5] =
      some { data := ⟨5, 0, 0, 0, [], false⟩, inCountOpen := false,
             countChOpen := false, stopped := false, err := none } ∧
    recStep V1.Result.Hide NewResult
      { data := ⟨5, 0, 0, 0, [], false⟩, inCountOpen := false,
        countChOpen := false, stopped := false, err := none }
      (RecEvent.yield 5) = none :=
  ⟨rfl, rfl⟩

/-- C1 (amended): in every run of the Recorder, the outbound count
channel never yields before the inbound count has arrived, every yield
carries exactly the value the inbound count delivered, and at most one
request is ever served over the whole run (the first one after the
count arrives); afterwards the outbound side stays disabled. -/
theorem C1_count_handoff_amended {R P : Type} (hide : R → Bool) (proj : R → P)
    (evts : List (RecEvent R)) (s : RecState R P)
    (h : recSteps hide proj (recInit : RecState R P) evts = some s) :
    countYields evts ≤ 1 ∧
    ∀ l₁ n l₂, evts = l₁ ++ RecEvent.yield n :: l₂ →
      ∃ l₃ l₄, l₁ = l₃ ++ RecEvent.count n :: l₄ := by
  constructor
  · have hb := recSteps_budget hide proj evts recInit s h
    have hinit : recBudget (recInit : RecState R P) = 1 := rfl
    omega
  · intro l₁ n l₂ hdecomp
    rw [hdecomp] at h
    obtain ⟨t, h1, h2⟩ :=
      recSteps_append hide proj l₁ (RecEvent.yield n :: l₂) recInit s h
    unfold recSteps at h2
    rcases hstep : recStep hide proj t (RecEvent.yield n) with _ | u
    · rw [hstep] at h2
      simp at h2
    · by_cases hst : t.stopped = true
      · rw [recStep_stopped hide proj t _ hst] at hstep
        exact absurd hstep (by simp)
      · have hst0 : t.stopped = false := by simpa using hst
        rw [recStep_yield_eq hide proj t n hst0] at hstep
        by_cases hc : (t.countChOpen && n == t.data.totalRequests) = true
        · have hopen : t.countChOpen = true := (Bool.and_eq_true _ _ |>.mp hc).1
          have hn : n = t.data.totalRequests := by
            have := (Bool.and_eq_true _ _ |>.mp hc).2
            exact beq_iff_eq.mp this
          rcases recSteps_chOpen_origin hide proj l₁ recInit t h1 hopen with
            ⟨habs, _⟩ | ⟨l₃, l₄, hl⟩
          · exact absurd habs (by simp [recInit])
          · refine ⟨l₃, l₄, ?_⟩
            rw [hl, hn]
        · have hc0 : (t.countChOpen && n == t.data.totalRequests) = false := by
            simpa using hc
          rw [hc0] at hstep
          simp at hstep

/-- Composition of elementwise relations. -/
lemma forall2_compose {α β γ : Type} {R : α → β → Prop} {S : β → γ → Prop}
    {T : α → γ → Prop} (h : ∀ a b c, R a b → S b c → T a c) :
    ∀ {l : List α} {m : List β} {n : List γ},
      List.Forall₂ R l m → List.Forall₂ S m n → List.Forall₂ T l n := by
  intro l m n h₁
  induction h₁ generalizing n with
  | nil =>
    intro h₂
    cases h₂
    exact List.Forall₂.nil
  | cons hab hrest ih =>
    intro h₂
    cases h₂ with
    | cons hbc hrest' => exact List.Forall₂.cons (h _ _ _ hab hbc) (ih hrest')

/-- A request that leaves the request tier un-hidden went through at
least one full response-marking pass: every response that some response
filter rejects ends up marked. -/
lemma processRequest_marks (f : Request → Bool) (fs : List (Request → Bool))
    (fr : List (Response → Bool)) (q : Request)
    (hflag : ((processRequest (f :: fs) fr q).1).Hide = false) :
    List.Forall₂ (fun p p' => fr.any (fun g => g p) = true → p'.Hide = true)
      q.Responses ((processRequest (f :: fs) fr q).1).Responses := by
  by_cases hf : f q = true
  · rw [processRequest_cons_of_match f fs fr q hf] at hflag
    exact absurd hflag (by simp)
  · have hf0 : f q = false := by simpa using hf
    rw [processRequest_cons_of_not_match f fs fr q hf0] at hflag ⊢
    have h1 : List.Forall₂ (fun p p' => fr.any (fun g => g p) = true → p'.Hide = true)
        q.Responses (q.Responses.map (applyResponseFilters fr)) :=
      forall2_map_of_pointwise _ _ _ (fun p hm => by
        rw [applyResponseFilters_of_match fr p hm])
    have h2 : RespMono (q.Responses.map (applyResponseFilters fr))
        ((processRequest fs fr
          { q with Responses := q.Responses.map (applyResponseFilters fr) }).1).Responses :=
      processRequest_respMono fs fr
        { q with Responses := q.Responses.map (applyResponseFilters fr) }
    exact forall2_compose (fun a b c hab hbc ha => hbc (hab ha)) h1 h2

/-- C2, counterexample.  The claim says Response-tier evaluation happens
for every Response of every non-hidden Request regardless of how many
Request-tier predicates are configured, including zero.  In the code
the Response-tier loop is nested inside the Request-tier loop, so with
zero Request-tier filters a configured, matching Response-tier filter
(here a reject-CNAMEs filter whose pattern matches everything) marks
nothing: the result passes through completely unchanged. -/
theorem C2_response_tier_cex :
    FilterRejectCNAMEs [fun _ => true]
      ⟨false, "CNAME", "www.example.com", 60⟩ = true ∧
    runFilters ⟨[], [], [FilterRejectCNAMEs [fun _ => true]]⟩
      ⟨false, "i", "host",
        [⟨false, "A", "NOERROR", false, false, none,
          [⟨false, "CNAME", "www.example.com", 60⟩], [], [], ⟨[], [], [], []⟩⟩]⟩ =
    ⟨false, "i", "host",
      [⟨false, "A", "NOERROR", false, false, none,
        [⟨false, "CNAME", "www.example.com", 60⟩], [], [], ⟨[], [], [], []⟩⟩]⟩ :=
  ⟨rfl, rfl⟩

/-- C2 (amended): Response-tier evaluation only runs inside the
Request-tier loop.  With zero Request-tier predicates configured, the
requests (and their responses) pass through classification unchanged;
with at least one Request-tier predicate configured and the Result tier
not matching, every Response of every Request that leaves the Request
tier un-hidden is marked Hide whenever some configured Response-tier
predicate matches it. -/
theorem C2_response_tier_amended (F : Filters) (r : Result) :
    (F.Request = [] → (runFilters F r).Requests = r.Requests) ∧
    (F.Request ≠ [] → F.Result.any (fun f => f r) = false →
      List.Forall₂ (fun q q' => q'.Hide = false →
        List.Forall₂ (fun p p' => F.Response.any (fun f => f p) = true → p'.Hide = true)
          q.Responses q'.Responses)
        r.Requests (runFilters F r).Requests) := by
  constructor
  · intro hreq
    by_cases hm : F.Result.any (fun f => f r) = true
    · rw [runFilters_of_match F r hm]
    · rw [runFilters_of_not_match F r (by simpa using hm)]
      show (r.Requests.map _).map Prod.fst = r.Requests
      rw [hreq]
      simp only [processRequest, List.map_map]
      exact List.map_id'' (fun _ => rfl) r.Requests
  · intro hne hm
    rw [runFilters_of_not_match F r hm]
    show List.Forall₂ _ r.Requests ((r.Requests.map _).map Prod.fst)
    rw [List.map_map]
    apply forall2_map_of_pointwise
    intro q
    obtain ⟨f, fs, hcons⟩ := List.exists_cons_of_ne_nil hne
    rw [hcons]
    intro hq'
    exact processRequest_marks f fs F.Response q hq'

/-- C2 witness: the amended theorem at a not-found filter in the
Request tier and a reject-everything CNAME filter in the Response
tier. -/
theorem C2_response_tier_amended_witness :
    ((⟨[], [FilterNotFound], [FilterRejectCNAMEs [fun _ => true]]⟩ : Filters).Request = [] →
      (runFilters ⟨[], [FilterNotFound], [FilterRejectCNAMEs [fun _ => true]]⟩
        ⟨false, "i", "host",
          [⟨false, "A", "NOERROR", false, false, none,
            [⟨false, "CNAME", "www.example.com", 60⟩], [], [], ⟨[], [], [], []⟩⟩]⟩).Requests =
      (⟨false, "i", "host",
        [⟨false, "A", "NOERROR", false, false, none,
          [⟨false, "CNAME", "www.example.com", 60⟩], [], [], ⟨[], [], [], []⟩⟩]⟩ : Result).Requests) ∧
    ((⟨[], [FilterNotFound], [FilterRejectCNAMEs [fun _ => true]]⟩ : Filters).Request ≠ [] →
      (⟨[], [FilterNotFound], [FilterRejectCNAMEs [fun _ => true]]⟩ : Filters).Result.any
        (fun f => f ⟨false, "i", "host",
          [⟨false, "A", "NOERROR", false, false, none,
            [⟨false, "CNAME", "www.example.com", 60⟩], [], [], ⟨[], [], [], []⟩⟩]⟩) = false →
      List.Forall₂ (fun q q' => q'.Hide = false →
        List.Forall₂
          (fun p p' =>
            (⟨[], [FilterNotFound], [FilterRejectCNAMEs [fun _ => true]]⟩ : Filters).Response.any
              (fun f => f p) = true → p'.Hide = true)
          q.Responses q'.Responses)
        (⟨false, "i", "host",
          [⟨false, "A", "NOERROR", false, false, none,
            [⟨false, "CNAME", "www.example.com", 60⟩], [], [], ⟨[], [], [], []⟩⟩]⟩ : Result).Requests
        (runFilters ⟨[], [FilterNotFound], [FilterRejectCNAMEs [fun _ => true]]⟩
          ⟨false, "i", "host",
            [⟨false, "A", "NOERROR", false, false, none,
              [⟨false, "CNAME", "www.example.com", 60⟩], [], [], ⟨[], [], [], []⟩⟩]⟩).Requests) :=
  C2_response_tier_amended
    ⟨[], [FilterNotFound], [FilterRejectCNAMEs [fun _ => true]]⟩
    ⟨false, "i", "host",
      [⟨false, "A", "NOERROR", false, false, none,
        [⟨false, "CNAME", "www.example.com", 60⟩], [], [], ⟨[], [], [], []⟩⟩]⟩

/-- C1 witness: the amended theorem applied to the two-event trace
`count 5, yield 5`. -/
theorem C1_count_handoff_amended_witness :
    countYields ([RecEvent.count 5, RecEvent.yield 5] : List (RecEvent V1.Result)) ≤ 1 ∧
    ∀ l₁ n l₂,
      ([RecEvent.count 5, RecEvent.yield 5] : List (RecEvent V1.Result)) =
        l₁ ++ RecEvent.yield n :: l₂ →
      ∃ l₃ l₄, l₁ = l₃ ++ RecEvent.count n :: l₄ :=
  C1_count_handoff_amended V1.Result.Hide NewResult
    [RecEvent.count 5, RecEvent.yield 5]
    { data := ⟨5, 0, 0, 0, [], false⟩, inCountOpen := false,
      countChOpen := false, stopped := false, err := none }
    rfl

/-- C3: after classification of a Result that enters unmarked (as every
Result produced by the resolver does), `Result.Hide` is true exactly
when a Result-tier filter matched it or every one of its Requests ended
up hidden after Request/Response-tier filtering; in particular a Result
with a non-hidden Request is never marked by the collapse rule alone. -/
theorem C3_collapse_iff (F : Filters) (r : Result)
    (hr : r.Hide = false) (hreq : ∀ q ∈ r.Requests, q.Hide = false) :
    ((runFilters F r).Hide = true ↔
      F.Result.any (fun f => f r) = true ∨
      (runFilters F r).Requests.all (fun q => q.Hide) = true) := by
  by_cases hm : F.Result.any (fun f => f r) = true
  · rw [runFilters_of_match F r hm]
    simp [hm]
  · have hm0 : F.Result.any (fun f => f r) = false := by simpa using hm
    rw [runFilters_of_not_match F r hm0]
    have hall := processed_all_flag F.Request F.Response r.Requests hreq
    show (r.Hide || _) = true ↔ _ ∨ _
    rw [hr, hall, hm0]
    simp

/-- C3 witness: a single not-found request with the not-found filter
configured: the request is hidden, so the collapse rule fires. -/
theorem C3_collapse_iff_witness :
    ((runFilters ⟨[], [FilterNotFound], []⟩
        ⟨false, "i", "host",
          [⟨false, "A", "NXDOMAIN", true, true, none, [], [], [], ⟨[], [], [], []⟩⟩]⟩).Hide = true ↔
      (⟨[], [FilterNotFound], []⟩ : Filters).Result.any
        (fun f => f ⟨false, "i", "host",
          [⟨false, "A", "NXDOMAIN", true, true, none, [], [], [], ⟨[], [], [], []⟩⟩]⟩) = true ∨
      (runFilters ⟨[], [FilterNotFound], []⟩
        ⟨false, "i", "host",
          [⟨false, "A", "NXDOMAIN", true, true, none, [], [], [], ⟨[], [], [], []⟩⟩]⟩).Requests.all
        (fun q => q.Hide) = true) :=
  C3_collapse_iff ⟨[], [FilterNotFound], []⟩
    ⟨false, "i", "host",
      [⟨false, "A", "NXDOMAIN", true, true, none, [], [], [], ⟨[], [], [], []⟩⟩]⟩
    rfl
    (by
      intro q hq
      rw [List.mem_singleton] at hq
      subst hq
      rfl)

/-- C5: classification mutates only Hide flags.  Erasing every Hide
flag a filter may set yields the same value before and after
`runFilters` (so Item, Hostname, every Request's Type, Status, Failure,
NotFound, Error, Responses' Data and TTL, Nameserver, SOA and Raw
fields are untouched and nothing is added or removed), and no Hide flag
that was true is ever reset to false, at any granularity. -/
theorem C5_filters_frame (F : Filters) (r : Result) :
    eraseHide (runFilters F r) = eraseHide r ∧
    (r.Hide = true → (runFilters F r).Hide = true) ∧
    List.Forall₂ (fun q q' => (q.Hide = true → q'.Hide = true) ∧
      RespMono q.Responses q'.Responses) r.Requests (runFilters F r).Requests :=
  ⟨runFilters_eraseHide F r, runFilters_hide_mono F r, runFilters_requests_mono F r⟩

/-- C5 witness: the frame theorem at a concrete filter set and result. -/
theorem C5_filters_frame_witness :
    eraseHide (runFilters ⟨[FilterEmptyResults], [], []⟩
      ⟨true, "w", "host-w",
        [⟨true, "A", "NOERROR", false, false, none,
          [⟨true, "A", "198.51.100.7", 60⟩], [], [], ⟨[], [], [], []⟩⟩]⟩) =
      eraseHide ⟨true, "w", "host-w",
        [⟨true, "A", "NOERROR", false, false, none,
          [⟨true, "A", "198.51.100.7", 60⟩], [], [], ⟨[], [], [], []⟩⟩]⟩ ∧
    ((true : Bool) = true →
      (runFilters ⟨[FilterEmptyResults], [], []⟩
        ⟨true, "w", "host-w",
          [⟨true, "A", "NOERROR", false, false, none,
            [⟨true, "A", "198.51.100.7", 60⟩], [], [], ⟨[], [], [], []⟩⟩]⟩).Hide = true) ∧
    List.Forall₂ (fun q q' => (q.Hide = true → q'.Hide = true) ∧
      RespMono q.Responses q'.Responses)
      (⟨true, "w", "host-w",
        [⟨true, "A", "NOERROR", false, false, none,
          [⟨true, "A", "198.51.100.7", 60⟩], [], [], ⟨[], [], [], []⟩⟩]⟩ : Result).Requests
      (runFilters ⟨[FilterEmptyResults], [], []⟩
        ⟨true, "w", "host-w",
          [⟨true, "A", "NOERROR", false, false, none,
            [⟨true, "A", "198.51.100.7", 60⟩], [], [], ⟨[], [], [], []⟩⟩]⟩).Requests :=
  C5_filters_frame ⟨[FilterEmptyResults], [], []⟩
    ⟨true, "w", "host-w",
      [⟨true, "A", "NOERROR", false, false, none,
        [⟨true, "A", "198.51.100.7", 60⟩], [], [], ⟨[], [], [], []⟩⟩]⟩

/-- C7: classification is idempotent.  Every filter the program
constructs is a pure predicate over the non-Hide fields (Hide-blind),
and for such filter sets a second run of `runFilters` returns its input
unchanged at every granularity. -/
theorem C7_classification_idempotent (F : Filters) (r : Result)
    (h1 : ∀ f ∈ F.Result, ResultHideBlind f)
    (h2 : ∀ f ∈ F.Request, RequestHideBlind f)
    (h3 : ∀ f ∈ F.Response, ResponseHideBlind f) :
    runFilters F (runFilters F r) = runFilters F r :=
  runFilters_idem F r h1 h2 h3

/-- C7 witness: idempotence at a configured filter set (hide-empty and
hide-delegations at the Result tier, not-found at the Request tier, a
reject-PTR pattern at the Response tier) on a concrete result. -/
theorem C7_classification_idempotent_witness :
    (∀ f ∈ ([FilterEmptyResults, FilterDelegations] :
        List (Result → Bool)), ResultHideBlind f) ∧
    (∀ f ∈ ([FilterNotFound] : List (Request → Bool)), RequestHideBlind f) ∧
    (∀ f ∈ ([FilterRejectPTR [fun _ => true]] : List (Response → Bool)),
      ResponseHideBlind f) ∧
    runFilters ⟨[FilterEmptyResults, FilterDelegations], [FilterNotFound],
        [FilterRejectPTR [fun _ => true]]⟩
      (runFilters ⟨[FilterEmptyResults, FilterDelegations], [FilterNotFound],
          [FilterRejectPTR [fun _ => true]]⟩
        ⟨false, "7", "host-7",
          [⟨false, "A", "NOERROR", false, false, none,
            [⟨false, "PTR", "ptr.example.org", 60⟩], [], [], ⟨[], [], [], []⟩⟩]⟩) =
    runFilters ⟨[FilterEmptyResults, FilterDelegations], [FilterNotFound],
        [FilterRejectPTR [fun _ => true]]⟩
      ⟨false, "7", "host-7",
        [⟨false, "A", "NOERROR", false, false, none,
          [⟨false, "PTR", "ptr.example.org", 60⟩], [], [], ⟨[], [], [], []⟩⟩]⟩ := by
  have hres : ∀ f ∈ ([FilterEmptyResults, FilterDelegations] :
      List (Result → Bool)), ResultHideBlind f := by
    intro f hf
    cases hf with
    | head => exact filterEmptyResults_blind
    | tail _ hf' =>
      cases hf' with
      | head => exact filterDelegations_blind
      | tail _ h => cases h
  have hreq : ∀ f ∈ ([FilterNotFound] : List (Request → Bool)), RequestHideBlind f := by
    intro f hf
    cases hf with
    | head => exact filterNotFound_blind
    | tail _ h => cases h
  have hresp : ∀ f ∈ ([FilterRejectPTR [fun _ => true]] : List (Response → Bool)),
      ResponseHideBlind f := by
    intro f hf
    cases hf with
    | head => exact filterRejectPTR_blind [fun _ => true]
    | tail _ h => cases h
  exact ⟨hres, hreq, hresp,
    C7_classification_idempotent
      ⟨[FilterEmptyResults, FilterDelegations], [FilterNotFound],
        [FilterRejectPTR [fun _ => true]]⟩
      ⟨false, "7", "host-7",
        [⟨false, "A", "NOERROR", false, false, none,
          [⟨false, "PTR", "ptr.example.org", 60⟩], [], [], ⟨[], [], [], []⟩⟩]⟩
      hres hreq hresp⟩

/-- C4, counterexample.  The claim says a shown Result's serialized
projection is appended only if the projection is itself non-empty.  The
code appends unconditionally: a non-hidden result whose A and AAAA
responses are both empty projects to a record with an empty response
map, and that record is still appended to the aggregate's list. -/
theorem C4_recorder_append_cex :
    (NewResult ⟨false, false, "1", "host-1",
      ⟨"NOERROR", false, [], [], [], [], none⟩,
      ⟨"NOERROR", false, [], [], [], [], none⟩, []⟩).Responses = [] ∧
    recStep V1.Result.Hide NewResult recInit
      (RecEvent.result ⟨false, false, "1", "host-1",
        ⟨"NOERROR", false, [], [], [], [], none⟩,
        ⟨"NOERROR", false, [], [], [], [], none⟩, []⟩ none) =
      some { data := ⟨0, 1, 1, 0,
               [NewResult ⟨false, false, "1", "host-1",
                 ⟨"NOERROR", false, [], [], [], [], none⟩,
                 ⟨"NOERROR", false, [], [], [], [], none⟩, []⟩], false⟩,
             inCountOpen := true, countChOpen := false, stopped := false,
             err := none } :=
  ⟨rfl, rfl⟩

/-- C4 (amended): for every Result the Recorder receives, SentRequests
is incremented; if `Hide` is false, ShownResults is incremented and the
serialized projection is appended unconditionally — even when the
projection is empty; if `Hide` is true, HiddenResults is incremented
and nothing is appended. -/
theorem C4_recorder_counts_amended (s s' : RecState V1.Result RecordedResult)
    (r : V1.Result) (d : Option (Option String))
    (h : recStep V1.Result.Hide NewResult s (RecEvent.result r d) = some s') :
    s'.data.sentRequests = s.data.sentRequests + 1 ∧
    (r.Hide = false →
      s'.data.shownResults = s.data.shownResults + 1 ∧
      s'.data.hiddenResults = s.data.hiddenResults ∧
      s'.data.results = s.data.results ++ [NewResult r]) ∧
    (r.Hide = true →
      s'.data.hiddenResults = s.data.hiddenResults + 1 ∧
      s'.data.shownResults = s.data.shownResults ∧
      s'.data.results = s.data.results) := by
  by_cases hst : s.stopped = true
  · rw [recStep_stopped _ _ _ _ hst] at h
    exact absurd h (by simp)
  · have hst0 : s.stopped = false := by simpa using hst
    rw [recStep_result_eq _ _ s r d hst0] at h
    have hdata : s'.data = recResultData V1.Result.Hide NewResult s.data r := by
      rcases d with _ | w
      · simp only [Option.some.injEq] at h
        rw [← h]
      · rcases w with _ | e <;>
          (simp only [Option.some.injEq] at h; rw [← h])
    refine ⟨?_, ?_, ?_⟩
    · rw [hdata, recResultData_sentRequests]
    · intro hh
      rw [hdata]
      refine ⟨?_, ?_, ?_⟩ <;> simp [recResultData, hh]
    · intro hh
      rw [hdata]
      refine ⟨?_, ?_, ?_⟩ <;> simp [recResultData, hh]

/-- C4 witness: the amended theorem at a hidden result received in the
initial state. -/
theorem C4_recorder_counts_amended_witness :
    ({ data := ⟨0, 1, 0, 1, [], false⟩, inCountOpen := true, countChOpen := false,
       stopped := false, err := none } : RecState V1.Result RecordedResult).data.sentRequests =
      (recInit : RecState V1.Result RecordedResult).data.sentRequests + 1 ∧
    ((⟨true, false, "2", "host-2",
        ⟨"NOERROR", false, [], [], [], [], none⟩,
        ⟨"NOERROR", false, [], [], [], [], none⟩, []⟩ : V1.Result).Hide = false →
      ({ data := ⟨0, 1, 0, 1, [], false⟩, inCountOpen := true, countChOpen := false,
         stopped := false, err := none } : RecState V1.Result RecordedResult).data.shownResults =
        (recInit : RecState V1.Result RecordedResult).data.shownResults + 1 ∧
      ({ data := ⟨0, 1, 0, 1, [], false⟩, inCountOpen := true, countChOpen := false,
         stopped := false, err := none } : RecState V1.Result RecordedResult).data.hiddenResults =
        (recInit : RecState V1.Result RecordedResult).data.hiddenResults ∧
      ({ data := ⟨0, 1, 0, 1, [], false⟩, inCountOpen := true, countChOpen := false,
         stopped := false, err := none } : RecState V1.Result RecordedResult).data.results =
        (recInit : RecState V1.Result RecordedResult).data.results ++
          [NewResult ⟨true, false, "2", "host-2",
            ⟨"NOERROR", false, [], [], [], [], none⟩,
            ⟨"NOERROR", false, [], [], [], [], none⟩, []⟩]) ∧
    ((⟨true, false, "2", "host-2",
        ⟨"NOERROR", false, [], [], [], [], none⟩,
        ⟨"NOERROR", false, [], [], [], [], none⟩, []⟩ : V1.Result).Hide = true →
      ({ data := ⟨0, 1, 0, 1, [], false⟩, inCountOpen := true, countChOpen := false,
         stopped := false, err := none } : RecState V1.Result RecordedResult).data.hiddenResults =
        (recInit : RecState V1.Result RecordedResult).data.hiddenResults + 1 ∧
      ({ data := ⟨0, 1, 0, 1, [], false⟩, inCountOpen := true, countChOpen := false,
         stopped := false, err := none } : RecState V1.Result RecordedResult).data.shownResults =
        (recInit : RecState V1.Result RecordedResult).data.shownResults ∧
      ({ data := ⟨0, 1, 0, 1, [], false⟩, inCountOpen := true, countChOpen := false,
         stopped := false, err := none } : RecState V1.Result RecordedResult).data.results =
        (recInit : RecState V1.Result RecordedResult).data.results) :=
  C4_recorder_counts_amended recInit
    { data := ⟨0, 1, 0, 1, [], false⟩, inCountOpen := true, countChOpen := false,
      stopped := false, err := none }
    ⟨true, false, "2", "host-2",
      ⟨"NOERROR", false, [], [], [], [], none⟩,
      ⟨"NOERROR", false, [], [], [], [], none⟩, []⟩
    none rfl

/-- C8: a failed checkpoint write stops the Recorder immediately and is
propagated as the value `Recorder.Run` returns.  After the failing
periodic write the loop is stopped with the error recorded, no further
event of any kind can be processed, and the run's return value is
exactly that write error; a failing final write is propagated the same
way. -/
theorem C8_dump_failure_fatal {R P : Type} (hide : R → Bool) (proj : R → P)
    (s s' : RecState R P) (r : R) (e : String)
    (h : recStep hide proj s (RecEvent.result r (some (some e))) = some s') :
    s'.stopped = true ∧ s'.err = some e ∧
    (∀ ev : RecEvent R, recStep hide proj s' ev = none) ∧
    (∀ w : Option String, recReturn s' w = Except.error e) ∧
    (∀ t : RecState R P, t.err = none → recReturn t (some e) = Except.error e) := by
  by_cases hst : s.stopped = true
  · rw [recStep_stopped _ _ _ _ hst] at h
    exact absurd h (by simp)
  · have hst0 : s.stopped = false := by simpa using hst
    rw [recStep_result_eq _ _ s r _ hst0] at h
    simp only [Option.some.injEq] at h
    have hstop : s'.stopped = true := by rw [← h]
    have herr : s'.err = some e := by rw [← h]
    refine ⟨hstop, herr, ?_, ?_, ?_⟩
    · intro ev
      exact recStep_stopped hide proj s' ev hstop
    · intro w
      unfold recReturn
      rw [herr]
    · intro t ht
      unfold recReturn
      rw [ht]

/-- The result received in the C8 witness scenario. -/
def c8Res : V1.Result :=
  ⟨false, false, "3", "host-3",
    ⟨"NOERROR", false, [], [], [], [], none⟩,
    ⟨"NOERROR", false, [], [], [], [], none⟩, []⟩

/-- The state after the C8 witness's failing periodic write. -/
def c8ErrState : RecState V1.Result RecordedResult :=
  { data := ⟨0, 1, 1, 0, [NewResult c8Res], false⟩,
    inCountOpen := true, countChOpen := false, stopped := true,
    err := some "disk full" }

/-- C8 witness: a failing periodic write in the initial state. -/
theorem C8_dump_failure_fatal_witness :
    c8ErrState.stopped = true ∧
    c8ErrState.err = some "disk full" ∧
    (∀ ev : RecEvent V1.Result,
      recStep V1.Result.Hide NewResult c8ErrState ev = none) ∧
    (∀ w : Option String, recReturn c8ErrState w = Except.error "disk full") ∧
    (∀ t : RecState V1.Result RecordedResult, t.err = none →
      recReturn t (some "disk full") = Except.error "disk full") :=
  C8_dump_failure_fatal V1.Result.Hide NewResult recInit c8ErrState c8Res
    "disk full" rfl

/-- C9: a Request built from a protocol exchange that returned a
transport error carries only its type and the error: Status is the
empty string, Failure and NotFound are false, and there are no
Responses.  Consequently `Request.Empty` is true for it, the not-found
filter never hides it, and a Result whose Requests all failed with
transport errors is `Empty`. -/
theorem C9_transport_error_empty (rts : Nat → String) (name t e : String) :
    sendRequest rts name t (Except.error e) =
      { Hide := false, «Type» := t, Status := "", Failure := false, NotFound := false,
        Error := some e, Responses := [], Nameserver := [], SOA := [],
        Raw := ⟨[], [], [], []⟩ } ∧
    (sendRequest rts name t (Except.error e)).Empty = true ∧
    FilterNotFound (sendRequest rts name t (Except.error e)) = false ∧
    ∀ (template item : String) (types : List String) (errf : String → String → String),
      (lookup template types
        (fun n ty => sendRequest rts n ty (Except.error (errf n ty))) item).Empty = true := by
  refine ⟨rfl, rfl, rfl, ?_⟩
  intro template item types errf
  simp only [lookup, Result.Empty]
  refine List.all_eq_true.mpr ?_
  intro q hq
  obtain ⟨ty, _, rfl⟩ := List.mem_map.mp hq
  rfl

/-- C10: the subnet filters examine only address records.
`FilterInSubnet` and `FilterNotInSubnet` never reject a Response whose
Type is neither "A" nor "AAAA", or whose Data does not parse as an IP
address — in particular CNAME, MX and PTR responses are never hidden by
either filter, whatever the configured subnets. -/
theorem C10_subnet_type_gate {α β : Type} (parseIP : String → Option α)
    (contains : β → α → Bool) (subnets : List β) (p : Response)
    (h : (p.«Type» ≠ "A" ∧ p.«Type» ≠ "AAAA") ∨ parseIP p.Data = none) :
    FilterInSubnet parseIP contains subnets p = false ∧
    FilterNotInSubnet parseIP contains subnets p = false := by
  rcases h with ⟨h1, h2⟩ | hp
  · constructor
    · unfold FilterInSubnet
      rw [if_pos ⟨h1, h2⟩]
    · unfold FilterNotInSubnet
      rw [if_pos ⟨h1, h2⟩]
  · constructor
    · unfold FilterInSubnet
      split
      · rfl
      · rw [hp]
    · unfold FilterNotInSubnet
      split
      · rfl
      · rw [hp]

/-- C10 witness: a CNAME response is rejected by neither subnet filter,
for an address parser that recognizes nothing and an empty subnet
list. -/
theorem C10_subnet_type_gate_witness :
    ((("CNAME" : String) ≠ "A" ∧ ("CNAME" : String) ≠ "AAAA") ∨
      (fun _ => (none : Option Nat)) "target.example.org" = none) ∧
    (FilterInSubnet (fun _ => (none : Option Nat)) (fun (_ : Nat) (_ : Nat) => false) []
      ⟨false, "CNAME", "target.example.org", 60⟩ = false ∧
    FilterNotInSubnet (fun _ => (none : Option Nat)) (fun (_ : Nat) (_ : Nat) => false) []
      ⟨false, "CNAME", "target.example.org", 60⟩ = false) :=
  ⟨Or.inl ⟨by decide, by decide⟩,
   C10_subnet_type_gate (fun _ => (none : Option Nat)) (fun _ _ => false) []
     ⟨false, "CNAME", "target.example.org", 60⟩
     (Or.inl ⟨by decide, by decide⟩)⟩

/-- Classification never changes a result's hostname. -/
lemma runFilters_Hostname (F : Filters) (r : Result) :
    (runFilters F r).Hostname = r.Hostname := by
  by_cases hm : F.Result.any (fun f => f r) = true
  · rw [runFilters_of_match F r hm]
  · rw [runFilters_of_not_match F r (by simpa using hm)]

/-- Folding a run of the Recorder over a block of received results: the
cached total is untouched, the sent counter advances by the block
length, and the loop neither stops nor fails (no checkpoint writes are
due in the block). -/
lemma recSteps_results {R P : Type} (hide : R → Bool) (proj : R → P) :
    ∀ (rs : List R) (s : RecState R P), s.stopped = false →
      ∃ s', recSteps hide proj s (rs.map (fun r => RecEvent.result r none)) = some s' ∧
        s'.data.totalRequests = s.data.totalRequests ∧
        s'.data.sentRequests = s.data.sentRequests + rs.length ∧
        s'.stopped = false ∧ s'.err = s.err := by
  intro rs
  induction rs with
  | nil =>
    intro s hs
    exact ⟨s, rfl, rfl, rfl, hs, rfl⟩
  | cons r rs ih =>
    intro s hs
    have hstep := recStep_result_eq hide proj s r none hs
    obtain ⟨s', hrun, htot, hsent, hstop, herr⟩ :=
      ih { s with data := recResultData hide proj s.data r } hs
    refine ⟨s', ?_, ?_, ?_, hstop, herr⟩
    · show recSteps hide proj s
        (RecEvent.result r none :: rs.map (fun r => RecEvent.result r none)) = some s'
      unfold recSteps
      rw [hstep]
      exact hrun
    · rw [htot]
      exact recResultData_totalRequests hide proj s.data r
    · rw [hsent]
      show (recResultData hide proj s.data r).sentRequests + rs.length = _
      rw [recResultData_sentRequests]
      simp [List.length_cons]
      omega

/-- End-to-end scenario A: the values of `Range(1,5,"%d")` pushed
through the resolver (template `host-FUZZ.example.org.`, request types
A and AAAA, wire exchange abstracted) and the classification stage with
no filters configured. -/
def scenarioAResults (ex : String → String → Request) : List Result :=
  ((rangeValues 1 5 formatDecimal).map
    (fun item => lookup "host-FUZZ.example.org." ["A", "AAAA"] ex item)).map
    (fun r => runFilters ⟨[], [], []⟩ r)

/-- C6, counterexample.  The claim says the five Results carry
hostnames `host-1.example.org.` through `host-5.example.org.` with the
trailing dot.  `Resolver.lookup` stores `cleanHostname name`, which
strips the trailing dot, so the recorded hostnames have no trailing
dot. -/
theorem C6_scenarioA_cex :
    (scenarioAResults
      (fun _ _ => ⟨false, "A", "", false, false, none, [], [], [], ⟨[], [], [], []⟩⟩)).map
      (fun r => r.Hostname) ≠
    ["host-1.example.org.", "host-2.example.org.", "host-3.example.org.",
     "host-4.example.org.", "host-5.example.org."] := by
  decide

/-- C6 (amended): with the producer Range(1,5,"%d") (modelled from the
spec), template `host-FUZZ.example.org.`, one worker and no filters,
the pipeline produces exactly 5 Results whose hostnames are
`host-1.example.org` through `host-5.example.org` — without the
trailing dot, which `cleanHostname` strips — and once the producer's
count of 5 has reached the Recorder, the final checkpoint records
`TotalRequests = 5` (with all five results counted as sent). -/
theorem C6_scenarioA_amended {P : Type} (proj : Result → P)
    (ex : String → String → Request) :
    (scenarioAResults ex).length = 5 ∧
    (scenarioAResults ex).map (fun r => r.Hostname) =
      ["host-1.example.org", "host-2.example.org", "host-3.example.org",
       "host-4.example.org", "host-5.example.org"] ∧
    ∃ s : RecState Result P,
      recSteps Result.Hide proj recInit
        (RecEvent.count (rangeCount 1 5) ::
          (scenarioAResults ex).map (fun r => RecEvent.result r none)) = some s ∧
      s.data.totalRequests = 5 ∧ s.data.sentRequests = 5 ∧
      recReturn s none = Except.ok s.data := by
  have hlen : (scenarioAResults ex).length = 5 := rfl
  refine ⟨hlen, ?_, ?_⟩
  · have hpt : ∀ item,
        (runFilters ⟨[], [], []⟩
          (lookup "host-FUZZ.example.org." ["A", "AAAA"] ex item)).Hostname =
        cleanHostname (stringReplaceAll "host-FUZZ.example.org." "FUZZ" item) := by
      intro item
      rw [runFilters_Hostname]
      rfl
    show (((rangeValues 1 5 formatDecimal).map _).map _).map _ = _
    rw [List.map_map, List.map_map]
    exact (List.map_congr_left (fun item _ => hpt item)).trans (by decide)
  · obtain ⟨s', hrun, htot, hsent, hstop, herr⟩ :=
      recSteps_results Result.Hide proj (scenarioAResults ex)
        ({ data := ⟨5, 0, 0, 0, [], false⟩, inCountOpen := false,
           countChOpen := true, stopped := false, err := none } : RecState Result P)
        rfl
    refine ⟨s', ?_, ?_, ?_, ?_⟩
    · show recSteps Result.Hide proj recInit (RecEvent.count (rangeCount 1 5) :: _) = some s'
      unfold recSteps
      exact hrun
    · rw [htot]
    · rw [hsent, hlen]
    · unfold recReturn
      rw [herr]
